import Mathlib

/-
Verification development for the DoubleRange dual-thumb range slider
(src/double-range.ts).  Numbers are modelled as rationals; DOM geometry is
reduced to the numeric quantities the widget reads and writes.  Exceptions
are modelled as an `Option String` component carrying the thrown message,
the `false` failure sentinel of `setFrom`/`setTo` as a `Bool` component.
-/

/-- ThumbType mirrors the source union type of the two thumbs. -/
inductive ThumbType where
  | fromT : ThumbType
  | toT : ThumbType
deriving DecidableEq, Inhabited

/-- DoubleRange is the numeric and scheduling state of one widget instance:
the private fields of the source class that the public operations read or
mutate.  `trackRect` is the cached (left, width) of the track,
`timerArmed` whether a debounce timer is pending, `firedCallbacks` the list
of (from, to) pairs already delivered to the host callback. -/
structure DoubleRange where
  minValue : ℚ
  maxValue : ℚ
  step : ℚ
  fromValue : ℚ
  toValue : ℚ
  beforeFromChange : Option (ℚ → ℚ → Bool)
  beforeToChange : Option (ℚ → ℚ → Bool)
  duringDrag : Bool
  isDragging : Option ThumbType
  trackRect : Option (ℚ × ℚ)
  timerArmed : Bool
  firedCallbacks : List (ℚ × ℚ)
deriving Inhabited

namespace DoubleRange

/-- Invariant stated by the spec for every externally observable state. -/
abbrev Invariant (s : DoubleRange) : Prop :=
  s.minValue < s.maxValue ∧ s.minValue ≤ s.fromValue ∧
    s.fromValue < s.toValue ∧ s.toValue ≤ s.maxValue

/-- guardBlocks g a b is true when a registered guard predicate vetoes the
change, mirroring `g !== null && !g(a, b)` in the source setters. -/
def guardBlocks (g : Option (ℚ → ℚ → Bool)) (a b : ℚ) : Bool :=
  match g with
  | some f => !(f a b)
  | none => false

/-- scheduleCallback mirrors the private method: the pending timer is always
cleared; while a drag is in progress no new timer is armed, otherwise a
fresh debounce timer is armed. -/
def scheduleCallback (s : DoubleRange) : DoubleRange :=
  let s1 := { s with timerArmed := false }
  if s1.duringDrag then s1
  else { s1 with timerArmed := true }

/-- fireTimer models the debounce timer elapsing: if armed, the callback is
invoked once with the committed pair and the timer is spent. -/
def fireTimer (s : DoubleRange) : DoubleRange :=
  if s.timerArmed then
    { s with timerArmed := false,
             firedCallbacks := s.firedCallbacks ++ [(s.fromValue, s.toValue)] }
  else s

/-- setFromStep is the body of `setFrom`; `corrective` is the result of the
recursive self-call `this.setFrom(this.#toValue - this.#step)` taken in the
ordering-violation branch. -/
def setFromStep (s : DoubleRange) (v : ℚ) (fire : Bool)
    (corrective : DoubleRange × Bool) : DoubleRange × Bool :=
  if v < s.minValue ∨ v > s.maxValue then (s, false)
  else if s.toValue ≤ v then (corrective.1, false)
  else if v = s.toValue then (s, false)
  else if guardBlocks s.beforeFromChange v s.toValue then (s, false)
  else
    let s1 := { s with fromValue := v }
    ((if fire then scheduleCallback s1 else s1), true)

/-- setFromAux runs `setFrom` with explicit recursion fuel for the
self-call; the self-call passes no `fireCallback` argument, so it uses the
source default `true`.  For a positive step the self-call never recurses
again, so fuel 2 computes the exact source behaviour. -/
def setFromAux : Nat → DoubleRange → ℚ → Bool → DoubleRange × Bool
  | 0, s, v, fire => setFromStep s v fire (s, false)
  | fuel + 1, s, v, fire =>
      setFromStep s v fire (setFromAux fuel s (s.toValue - s.step) true)

/-- setFrom is the public setter for the lower value. -/
def setFrom (s : DoubleRange) (v : ℚ) (fire : Bool) : DoubleRange × Bool :=
  setFromAux 2 s v fire

/-- setFromStepNoEq is `setFromStep` with the `from === this.#toValue`
equality branch removed, used to show that branch is dead code. -/
def setFromStepNoEq (s : DoubleRange) (v : ℚ) (fire : Bool)
    (corrective : DoubleRange × Bool) : DoubleRange × Bool :=
  if v < s.minValue ∨ v > s.maxValue then (s, false)
  else if s.toValue ≤ v then (corrective.1, false)
  else if guardBlocks s.beforeFromChange v s.toValue then (s, false)
  else
    let s1 := { s with fromValue := v }
    ((if fire then scheduleCallback s1 else s1), true)

/-- setFromAuxNoEq is `setFromAux` built on the equality-branch-free body. -/
def setFromAuxNoEq : Nat → DoubleRange → ℚ → Bool → DoubleRange × Bool
  | 0, s, v, fire => setFromStepNoEq s v fire (s, false)
  | fuel + 1, s, v, fire =>
      setFromStepNoEq s v fire (setFromAuxNoEq fuel s (s.toValue - s.step) true)

/-- setToStep is the body of `setTo`; `corrective` is the result of the
recursive self-call `this.setTo(this.#fromValue + this.#step)`. -/
def setToStep (s : DoubleRange) (v : ℚ) (fire : Bool)
    (corrective : DoubleRange × Bool) : DoubleRange × Bool :=
  if v < s.minValue ∨ v > s.maxValue then (s, false)
  else if v ≤ s.fromValue then (corrective.1, false)
  else if v = s.toValue then (s, false)
  else if guardBlocks s.beforeToChange s.fromValue v then (s, false)
  else
    let s1 := { s with toValue := v }
    ((if fire then scheduleCallback s1 else s1), true)

/-- setToAux runs `setTo` with explicit recursion fuel for the self-call. -/
def setToAux : Nat → DoubleRange → ℚ → Bool → DoubleRange × Bool
  | 0, s, v, fire => setToStep s v fire (s, false)
  | fuel + 1, s, v, fire =>
      setToStep s v fire (setToAux fuel s (s.fromValue + s.step) true)

/-- setTo is the public setter for the upper value. -/
def setTo (s : DoubleRange) (v : ℚ) (fire : Bool) : DoubleRange × Bool :=
  setToAux 2 s v fire

/-- corrFrom holds when the corrective self-write of `setFrom` actually
mutates: the clamped value `to - step` passes the bounds check, the
ordering check (equivalently the step is positive) and the guard. -/
abbrev corrFrom (s : DoubleRange) : Prop :=
  s.minValue ≤ s.toValue - s.step ∧ s.toValue - s.step ≤ s.maxValue ∧
    s.toValue - s.step < s.toValue ∧
    guardBlocks s.beforeFromChange (s.toValue - s.step) s.toValue = false

/-- corrTo holds when the corrective self-write of `setTo` actually
mutates: `from + step` passes the bounds check, the ordering check, the
no-change equality check and the guard. -/
abbrev corrTo (s : DoubleRange) : Prop :=
  s.minValue ≤ s.fromValue + s.step ∧ s.fromValue + s.step ≤ s.maxValue ∧
    s.fromValue < s.fromValue + s.step ∧ s.fromValue + s.step ≠ s.toValue ∧
    guardBlocks s.beforeToChange s.fromValue (s.fromValue + s.step) = false

/-- setMin mirrors the public setter: both RangeError checks precede any
mutation; the thrown message, if any, is the second component. -/
def setMin (s : DoubleRange) (min : ℚ) (fire : Bool) :
    DoubleRange × Option String :=
  if s.maxValue ≤ min then
    (s, some "DoubleRange.setMin: min must be less than max")
  else if s.fromValue < min then
    (s, some "DoubleRange.setMin: min must be less than or equal to current from value")
  else
    let s1 := { s with minValue := min }
    ((if fire then scheduleCallback s1 else s1), none)

/-- setMax mirrors the public setter: both RangeError checks precede any
mutation. -/
def setMax (s : DoubleRange) (max : ℚ) (fire : Bool) :
    DoubleRange × Option String :=
  if max ≤ s.minValue then
    (s, some "DoubleRange.setMax: max must be greater than min")
  else if max < s.toValue then
    (s, some "DoubleRange.setMax: max must be greater than or equal to current to value")
  else
    let s1 := { s with maxValue := max }
    ((if fire then scheduleCallback s1 else s1), none)

/-- UpdateOptions mirrors the partial bulk-update argument. -/
structure UpdateOptions where
  min : Option ℚ
  max : Option ℚ
  fromVal : Option ℚ
  toVal : Option ℚ

/-- mergedMin is the `next.min` value of `update`: the supplied field or the
current one. -/
def mergedMin (s : DoubleRange) (o : UpdateOptions) : ℚ := o.min.getD s.minValue

/-- mergedMax is the `next.max` value of `update`. -/
def mergedMax (s : DoubleRange) (o : UpdateOptions) : ℚ := o.max.getD s.maxValue

/-- mergedFrom is the `next.from` value of `update`. -/
def mergedFrom (s : DoubleRange) (o : UpdateOptions) : ℚ :=
  o.fromVal.getD s.fromValue

/-- mergedTo is the `next.to` value of `update`. -/
def mergedTo (s : DoubleRange) (o : UpdateOptions) : ℚ := o.toVal.getD s.toValue

/-- update mirrors the public bulk setter: the merged next state is checked
against every ordering constraint before any field is written. -/
def update (s : DoubleRange) (o : UpdateOptions) (fire : Bool) :
    DoubleRange × Option String :=
  let nmin := mergedMin s o
  let nmax := mergedMax s o
  let nfrom := mergedFrom s o
  let nto := mergedTo s o
  if nmax ≤ nmin then
    (s, some "DoubleRange.update: min must be less than max")
  else if nfrom < nmin ∨ nfrom > nmax then
    (s, some "DoubleRange.update: from must be between min and max")
  else if nto < nmin ∨ nto > nmax then
    (s, some "DoubleRange.update: to must be between min and max")
  else if nto ≤ nfrom then
    (s, some "DoubleRange.update: from must be less than to")
  else
    let s1 := { s with minValue := nmin, maxValue := nmax,
                       fromValue := nfrom, toValue := nto }
    ((if fire then scheduleCallback s1 else s1), none)

/-- getFrom is the pure reader of the lower value. -/
def getFrom (s : DoubleRange) : ℚ := s.fromValue

/-- getTo is the pure reader of the upper value. -/
def getTo (s : DoubleRange) : ℚ := s.toValue

/-- getMin is the pure reader of the minimum bound. -/
def getMin (s : DoubleRange) : ℚ := s.minValue

/-- getMax is the pure reader of the maximum bound. -/
def getMax (s : DoubleRange) : ℚ := s.maxValue

/-- getRange is the pure reader of the committed pair. -/
def getRange (s : DoubleRange) : ℚ × ℚ := (s.fromValue, s.toValue)

/-- getValue reads the value of one thumb, as the private helper does. -/
def getValue (s : DoubleRange) (t : ThumbType) : ℚ :=
  match t with
  | .fromT => s.fromValue
  | .toT => s.toValue

/-- setValue dispatches to the public setter of one thumb, as the private
helper does; the `fireCallback` argument is left at its default `true`. -/
def setValue (s : DoubleRange) (t : ThumbType) (v : ℚ) : DoubleRange :=
  match t with
  | .fromT => (setFrom s v true).1
  | .toT => (setTo s v true).1

/-- snapValue is the snapping formula shared by the click and drag paths:
`Math.round((value - min) / step) * step + min`. -/
def snapValue (s : DoubleRange) (value : ℚ) : ℚ :=
  ((round ((value - s.minValue) / s.step) : ℤ) : ℚ) * s.step + s.minValue

/-- trackClicked mirrors the track click handler: the candidate value is
derived from the pointer position without clamping, snapped, and the thumb
at the strictly smaller distance moves; otherwise the upper thumb moves. -/
def trackClicked (s : DoubleRange) (clientX : ℚ) : DoubleRange :=
  match s.trackRect with
  | none => s
  | some r =>
      let percent := (clientX - r.1) / r.2
      let value := s.minValue + percent * (s.maxValue - s.minValue)
      let snapped := snapValue s value
      if |snapped - s.fromValue| < |snapped - s.toValue| then
        (setFrom s snapped true).1
      else
        (setTo s snapped true).1

/-- Key models the keyboard keys the handler distinguishes. -/
inductive Key where
  | arrowLeft : Key
  | arrowDown : Key
  | arrowRight : Key
  | arrowUp : Key
  | other : Key

/-- onKey mirrors the keyboard handler on a focused thumb: step down when
the result stays at or above min, step up when it stays at or below max,
and schedule a debounced notification on any attempted change. -/
def onKey (s : DoubleRange) (k : Key) (t : ThumbType) : DoubleRange :=
  match k with
  | .arrowLeft | .arrowDown =>
      if s.minValue ≤ getValue s t - s.step then
        scheduleCallback (setValue s t (getValue s t - s.step))
      else s
  | .arrowRight | .arrowUp =>
      if getValue s t + s.step ≤ s.maxValue then
        scheduleCallback (setValue s t (getValue s t + s.step))
      else s
  | .other => s

/-- onDragStart mirrors the drag start handler: the dragged thumb is
recorded, the during-drag flag raised, and any pending timer cleared. -/
def onDragStart (s : DoubleRange) (t : ThumbType) : DoubleRange :=
  { s with isDragging := some t, duringDrag := true, timerArmed := false }

/-- onDragMove mirrors the drag move handler: it is a no-op without an
active drag, a cached track rect, or a zero clientX (the source's falsy
check); otherwise the clamped, snapped candidate is delegated to the
corresponding setter. -/
def onDragMove (s : DoubleRange) (clientX : ℚ) : DoubleRange :=
  match s.isDragging, s.trackRect with
  | some t, some r =>
      if clientX = 0 then s
      else
        let percent := max 0 (min 1 ((clientX - r.1) / r.2))
        let value := s.minValue + percent * (s.maxValue - s.minValue)
        let snapped := snapValue s value
        setValue s t snapped
  | _, _ => s

/-- onDragEnd mirrors the drag end handler: with no active drag it is a
no-op, otherwise the drag state is reset and the final notification is
scheduled. -/
def onDragEnd (s : DoubleRange) : DoubleRange :=
  match s.isDragging with
  | none => s
  | some _ => scheduleCallback { s with isDragging := none, duringDrag := false }

/-- dragMoves folds a whole sequence of move events over the state. -/
def dragMoves (s : DoubleRange) (xs : List ℚ) : DoubleRange :=
  xs.foldl onDragMove s

/-- setRects models the resize observer recaching the track geometry; the
numeric values are untouched. -/
def setRects (s : DoubleRange) (r : Option (ℚ × ℚ)) : DoubleRange :=
  { s with trackRect := r }

/-- Config is the numeric part of the configuration object; selector,
callback, formatter, label and delay do not influence the modelled state. -/
structure Config where
  min : ℚ
  max : ℚ
  fromVal : ℚ
  toVal : ℚ
  step : ℚ
  beforeFromChange : Option (ℚ → ℚ → Bool)
  beforeToChange : Option (ℚ → ℚ → Bool)

/-- AttachAttrs is the set of ARIA attributes the constructor parses from a
pre-existing structure; `none` stands for a missing attribute. -/
structure AttachAttrs where
  ariaValueMin : Option ℚ
  ariaValueMax : Option ℚ
  fromNow : Option ℚ
  toNow : Option ℚ

/-- initState mirrors the numeric initialisation of the constructor:
bounds come from the attributes with defaults 0 and 100, the thumb values
go through the source's falsy fallback chain
`parseFloat(attr) || config || bound`, and only `from < to` is checked. -/
def initState (a : AttachAttrs) (o : Config) : Except String DoubleRange :=
  let minValue := a.ariaValueMin.getD 0
  let maxValue := a.ariaValueMax.getD 100
  let f0 := a.fromNow.getD 0
  let fromValue := if f0 = 0 then (if o.fromVal = 0 then minValue else o.fromVal) else f0
  let t0 := a.toNow.getD 100
  let toValue := if t0 = 0 then (if o.toVal = 0 then maxValue else o.toVal) else t0
  if toValue ≤ fromValue then
    .error "Initial values: from must be less than to"
  else
    .ok { minValue := minValue, maxValue := maxValue, step := o.step,
          fromValue := fromValue, toValue := toValue,
          beforeFromChange := o.beforeFromChange,
          beforeToChange := o.beforeToChange,
          duringDrag := false, isDragging := none, trackRect := none,
          timerArmed := false, firedCallbacks := [] }

/-- attachBind models binding to an already-present structure.  The
registry is a WeakMap keyed by DOM elements, modelled as the list of
registered element ids.  The constructor checks membership of the host
container `cid`, yet on success it registers the inner `.double-range`
element `did` (the source stores `this.#div`, found via `querySelector`
and therefore a strict descendant of — hence distinct from — the
container).  `Map.set` is modelled on the key set as `List.insert`. -/
def attachBind (reg : List Nat) (cid did : Nat) (a : AttachAttrs) (o : Config) :
    Except String (List Nat × DoubleRange) :=
  if cid ∈ reg then
    .error "DoubleRange is already initialized on this element"
  else
    (initState a o).map (fun s => (reg.insert did, s))

/-- createBind models the `create` factory: the configuration is validated,
the markup attributes are generated from it, and the constructor parses
them back. -/
def createBind (o : Config) : Except String DoubleRange :=
  if o.fromVal < o.min ∨ o.fromVal > o.max then .error "from value out of range"
  else if o.toVal < o.min ∨ o.toVal > o.max then .error "to value out of range"
  else if o.toVal ≤ o.fromVal then .error "from must be less than to"
  else initState ⟨some o.min, some o.max, some o.fromVal, some o.toVal⟩ o

/-- Reachable s holds when s is an externally observable state: the result
of a create-mode bind followed by any sequence of public operations,
interaction events, geometry recaching and timer expiry. -/
inductive Reachable : DoubleRange → Prop where
  | init (o : Config) (s : DoubleRange) : createBind o = .ok s → Reachable s
  | rectsStep (s : DoubleRange) (r : Option (ℚ × ℚ)) :
      Reachable s → Reachable (setRects s r)
  | setFromStep (s : DoubleRange) (v : ℚ) (fire : Bool) :
      Reachable s → Reachable (setFrom s v fire).1
  | setToStep (s : DoubleRange) (v : ℚ) (fire : Bool) :
      Reachable s → Reachable (setTo s v fire).1
  | setMinStep (s : DoubleRange) (v : ℚ) (fire : Bool) :
      Reachable s → Reachable (setMin s v fire).1
  | setMaxStep (s : DoubleRange) (v : ℚ) (fire : Bool) :
      Reachable s → Reachable (setMax s v fire).1
  | updateStep (s : DoubleRange) (o : UpdateOptions) (fire : Bool) :
      Reachable s → Reachable (update s o fire).1
  | keyStep (s : DoubleRange) (k : Key) (t : ThumbType) :
      Reachable s → Reachable (onKey s k t)
  | clickStep (s : DoubleRange) (x : ℚ) :
      Reachable s → Reachable (trackClicked s x)
  | dragStartStep (s : DoubleRange) (t : ThumbType) :
      Reachable s → Reachable (onDragStart s t)
  | dragMoveStep (s : DoubleRange) (x : ℚ) :
      Reachable s → Reachable (onDragMove s x)
  | dragEndStep (s : DoubleRange) :
      Reachable s → Reachable (onDragEnd s)
  | timerStep (s : DoubleRange) :
      Reachable s → Reachable (fireTimer s)

/-- resolveLabels: the from/to label layout passes of `#updateFromToLabels`.
Modelled from the spec: the stylesheet and browser layout that turn a CSS
`left` into a measured bounding box are not under src/, so per the spec's
LayoutEngine description a label is a box (left, width) in container
coordinates and adding d to the `calc` expression shifts the measured left
by d.  The pass structure, including which measurements are re-taken (the
rects are re-measured after the collision pass but not after the overflow
shifts), follows the source.  Input: container width W, from-label left and
width, to-label left and width; output: final (fromLeft, toLeft). -/
def resolveLabels (W fl fw tl tw : ℚ) : ℚ × ℚ :=
  let cw := fl + fw - tl
  let fl1 := if cw > 0 then fl - cw / 2 else fl
  let tl1 := if cw > 0 then tl + cw / 2 else tl
  let ro := tl1 + tw - W
  let p2 :=
    if ro > 0 then
      let tl2 := tl1 - ro
      let fc := fl1 + fw - (W - tw)
      if fc > 0 then (fl1 - fc, tl2) else (fl1, tl2)
    else (fl1, tl1)
  if fl1 < 0 then
    let fl3 := p2.1 - fl1
    if tl1 < fw then (fl3, p2.2 + (fw - tl1)) else (fl3, p2.2)
  else p2

/-- exIdle is a helper building an idle widget state with no guards from
the four numeric values and the step. -/
def exIdle (mn mx st f t : ℚ) : DoubleRange :=
  { minValue := mn, maxValue := mx, step := st, fromValue := f, toValue := t,
    beforeFromChange := none, beforeToChange := none, duringDrag := false,
    isDragging := none, trackRect := none, timerArmed := false,
    firedCallbacks := [] }

/-- exCfg is a helper building a guard-free configuration. -/
def exCfg (mn mx f t st : ℚ) : Config :=
  { min := mn, max := mx, fromVal := f, toVal := t, step := st,
    beforeFromChange := none, beforeToChange := none }

/-- exBindCfg is the configuration of the running example of the source
documentation: bounds 0..100, selection 20..80, step 5. -/
def exBindCfg : Config := exCfg 0 100 20 80 5

/-- exAttrsSkewed are attach-mode attributes whose bounds disagree with the
thumb values: aria-valuemin 50, aria-valuemax 100, thumb values 10 and 60. -/
def exAttrsSkewed : AttachAttrs := ⟨some 50, some 100, some 10, some 60⟩

/-- exAttrsWide are consistent attach-mode attributes for the running
example: bounds 0..100, thumb values 20 and 80. -/
def exAttrsWide : AttachAttrs := ⟨some 0, some 100, some 20, some 80⟩

/-- exAttached is the state an attach-mode bind builds from `exAttrsSkewed`:
bounds 50..100 with thumb values 10 and 60 taken verbatim from the
attributes. -/
def exAttached : DoubleRange := exIdle 50 100 1 10 60

/-- exNarrow is a valid state whose selection is narrower than one step:
bounds 0..100, step 5, selection 2..3. -/
def exNarrow : DoubleRange := exIdle 0 100 5 2 3

/-- exWide is the running example state: bounds 0..100, step 5,
selection 20..80. -/
def exWide : DoubleRange := exIdle 0 100 5 20 80

/-- exTrack is `exWide` with a cached track rect of left 0 and width 100. -/
def exTrack : DoubleRange := { exWide with trackRect := some (0, 100) }

/-- exTrackFine is `exTrack` with step 1. -/
def exTrackFine : DoubleRange := { exTrack with step := 1 }

/-- exVeto is `exWide` with a from-guard that vetoes every change. -/
def exVeto : DoubleRange := { exWide with beforeFromChange := some (fun _ _ => false) }

/-- exLow is a state whose from value sits below the selection midpoint:
bounds 0..100, step 1, selection 5..50. -/
def exLow : DoubleRange := exIdle 0 100 1 5 50

/-- exShift are the update options raising min to 10 and lowering max
to 90. -/
def exShift : UpdateOptions := ⟨some 10, some 90, none, none⟩

/-- exHigh is a state with selection 10..60 over bounds 0..100, step 1. -/
def exHigh : DoubleRange := exIdle 0 100 1 10 60

end DoubleRange

namespace DoubleRange

section ProjectionLemmas

variable (s : DoubleRange)

@[simp] lemma scheduleCallback_minValue : (scheduleCallback s).minValue = s.minValue := by
  simp only [scheduleCallback]; split <;> rfl

@[simp] lemma scheduleCallback_maxValue : (scheduleCallback s).maxValue = s.maxValue := by
  simp only [scheduleCallback]; split <;> rfl

@[simp] lemma scheduleCallback_step : (scheduleCallback s).step = s.step := by
  simp only [scheduleCallback]; split <;> rfl

@[simp] lemma scheduleCallback_fromValue : (scheduleCallback s).fromValue = s.fromValue := by
  simp only [scheduleCallback]; split <;> rfl

@[simp] lemma scheduleCallback_toValue : (scheduleCallback s).toValue = s.toValue := by
  simp only [scheduleCallback]; split <;> rfl

@[simp] lemma scheduleCallback_duringDrag : (scheduleCallback s).duringDrag = s.duringDrag := by
  simp only [scheduleCallback]; split <;> rfl

@[simp] lemma scheduleCallback_isDragging : (scheduleCallback s).isDragging = s.isDragging := by
  simp only [scheduleCallback]; split <;> rfl

@[simp] lemma scheduleCallback_trackRect : (scheduleCallback s).trackRect = s.trackRect := by
  simp only [scheduleCallback]; split <;> rfl

@[simp] lemma scheduleCallback_firedCallbacks :
    (scheduleCallback s).firedCallbacks = s.firedCallbacks := by
  simp only [scheduleCallback]; split <;> rfl

lemma scheduleCallback_timer_during (h : s.duringDrag = true) :
    (scheduleCallback s).timerArmed = false := by
  simp only [scheduleCallback]
  rw [if_pos (by simpa using h)]

lemma scheduleCallback_timer_idle (h : s.duringDrag = false) :
    (scheduleCallback s).timerArmed = true := by
  simp only [scheduleCallback]
  rw [if_neg (by simp [h])]

lemma invariant_scheduleCallback : Invariant (scheduleCallback s) ↔ Invariant s := by
  unfold Invariant; simp

end ProjectionLemmas

section InvariantPreservation

lemma setFromStep_invariant (s : DoubleRange) (v : ℚ) (fire : Bool)
    (c : DoubleRange × Bool) (hs : Invariant s) (hc : Invariant c.1) :
    Invariant (setFromStep s v fire c).1 := by
  unfold setFromStep
  split_ifs with h1 h2 h3 h4 h5
  · exact hs
  · exact hc
  · exact hs
  · exact hs
  · push_neg at h1
    exact (invariant_scheduleCallback _).mpr ⟨hs.1, h1.1, lt_of_not_le h2, hs.2.2.2⟩
  · push_neg at h1
    exact ⟨hs.1, h1.1, lt_of_not_le h2, hs.2.2.2⟩

lemma setFromAux_invariant (fuel : Nat) (s : DoubleRange) (v : ℚ) (fire : Bool)
    (hs : Invariant s) : Invariant (setFromAux fuel s v fire).1 := by
  induction fuel generalizing v fire with
  | zero => exact setFromStep_invariant s v fire (s, false) hs hs
  | succ n ih => exact setFromStep_invariant s v fire _ hs (ih _ _)

lemma setToStep_invariant (s : DoubleRange) (v : ℚ) (fire : Bool)
    (c : DoubleRange × Bool) (hs : Invariant s) (hc : Invariant c.1) :
    Invariant (setToStep s v fire c).1 := by
  unfold setToStep
  split_ifs with h1 h2 h3 h4 h5
  · exact hs
  · exact hc
  · exact hs
  · exact hs
  · push_neg at h1
    exact (invariant_scheduleCallback _).mpr ⟨hs.1, hs.2.1, lt_of_not_le h2, h1.2⟩
  · push_neg at h1
    exact ⟨hs.1, hs.2.1, lt_of_not_le h2, h1.2⟩

lemma setToAux_invariant (fuel : Nat) (s : DoubleRange) (v : ℚ) (fire : Bool)
    (hs : Invariant s) : Invariant (setToAux fuel s v fire).1 := by
  induction fuel generalizing v fire with
  | zero => exact setToStep_invariant s v fire (s, false) hs hs
  | succ n ih => exact setToStep_invariant s v fire _ hs (ih _ _)

lemma setFrom_invariant (s : DoubleRange) (v : ℚ) (fire : Bool) (hs : Invariant s) :
    Invariant (setFrom s v fire).1 := setFromAux_invariant 2 s v fire hs

lemma setTo_invariant (s : DoubleRange) (v : ℚ) (fire : Bool) (hs : Invariant s) :
    Invariant (setTo s v fire).1 := setToAux_invariant 2 s v fire hs

lemma setMin_invariant (s : DoubleRange) (v : ℚ) (fire : Bool) (hs : Invariant s) :
    Invariant (setMin s v fire).1 := by
  unfold setMin
  split_ifs with h1 h2 h3
  · exact hs
  · exact hs
  · push_neg at h1 h2
    exact (invariant_scheduleCallback _).mpr
      ⟨lt_of_le_of_lt h2 (lt_of_lt_of_le hs.2.2.1 hs.2.2.2), h2, hs.2.2.1, hs.2.2.2⟩
  · push_neg at h1 h2
    exact ⟨lt_of_le_of_lt h2 (lt_of_lt_of_le hs.2.2.1 hs.2.2.2), h2, hs.2.2.1, hs.2.2.2⟩

lemma setMax_invariant (s : DoubleRange) (v : ℚ) (fire : Bool) (hs : Invariant s) :
    Invariant (setMax s v fire).1 := by
  unfold setMax
  split_ifs with h1 h2 h3
  · exact hs
  · exact hs
  · push_neg at h1 h2
    exact (invariant_scheduleCallback _).mpr
      ⟨lt_of_le_of_lt hs.2.1 (lt_of_lt_of_le hs.2.2.1 h2), hs.2.1, hs.2.2.1, h2⟩
  · push_neg at h1 h2
    exact ⟨lt_of_le_of_lt hs.2.1 (lt_of_lt_of_le hs.2.2.1 h2), hs.2.1, hs.2.2.1, h2⟩

lemma update_invariant (s : DoubleRange) (o : UpdateOptions) (fire : Bool)
    (hs : Invariant s) : Invariant (update s o fire).1 := by
  unfold update
  dsimp only
  split_ifs with h1 h2 h3 h4 h5
  · exact hs
  · exact hs
  · exact hs
  · exact hs
  · push_neg at h1 h2 h3 h4
    exact (invariant_scheduleCallback _).mpr ⟨h1, h2.1, h4, h3.2⟩
  · push_neg at h1 h2 h3 h4
    exact ⟨h1, h2.1, h4, h3.2⟩

lemma setValue_invariant (s : DoubleRange) (t : ThumbType) (v : ℚ) (hs : Invariant s) :
    Invariant (setValue s t v) := by
  cases t
  · exact setFrom_invariant s v true hs
  · exact setTo_invariant s v true hs

lemma onKey_invariant (s : DoubleRange) (k : Key) (t : ThumbType) (hs : Invariant s) :
    Invariant (onKey s k t) := by
  have hstep : ∀ v : ℚ, Invariant (scheduleCallback (setValue s t v)) := by
    intro v
    rw [invariant_scheduleCallback]
    exact setValue_invariant s t v hs
  cases k
  case arrowLeft =>
    show Invariant (if s.minValue ≤ getValue s t - s.step then _ else s)
    split
    · exact hstep _
    · exact hs
  case arrowDown =>
    show Invariant (if s.minValue ≤ getValue s t - s.step then _ else s)
    split
    · exact hstep _
    · exact hs
  case arrowRight =>
    show Invariant (if getValue s t + s.step ≤ s.maxValue then _ else s)
    split
    · exact hstep _
    · exact hs
  case arrowUp =>
    show Invariant (if getValue s t + s.step ≤ s.maxValue then _ else s)
    split
    · exact hstep _
    · exact hs
  case other => exact hs

lemma trackClicked_invariant (s : DoubleRange) (x : ℚ) (hs : Invariant s) :
    Invariant (trackClicked s x) := by
  unfold trackClicked
  cases htr : s.trackRect with
  | none => exact hs
  | some r =>
      dsimp only
      split
      · exact setFrom_invariant s _ true hs
      · exact setTo_invariant s _ true hs

lemma onDragStart_invariant (s : DoubleRange) (t : ThumbType) (hs : Invariant s) :
    Invariant (onDragStart s t) := hs

lemma onDragMove_invariant (s : DoubleRange) (x : ℚ) (hs : Invariant s) :
    Invariant (onDragMove s x) := by
  unfold onDragMove
  cases hd : s.isDragging with
  | none => exact hs
  | some t =>
      cases htr : s.trackRect with
      | none => exact hs
      | some r =>
          dsimp only
          split
          · exact hs
          · exact setValue_invariant s t _ hs

lemma onDragEnd_invariant (s : DoubleRange) (hs : Invariant s) :
    Invariant (onDragEnd s) := by
  unfold onDragEnd
  cases hd : s.isDragging with
  | none => exact hs
  | some t =>
      dsimp only
      rw [invariant_scheduleCallback]
      exact hs

lemma fireTimer_invariant (s : DoubleRange) (hs : Invariant s) :
    Invariant (fireTimer s) := by
  unfold fireTimer
  split
  · exact hs
  · exact hs

lemma setRects_invariant (s : DoubleRange) (r : Option (ℚ × ℚ)) (hs : Invariant s) :
    Invariant (setRects s r) := hs

lemma createBind_invariant (o : Config) (s : DoubleRange)
    (h : createBind o = .ok s) : Invariant s := by
  unfold createBind at h
  split_ifs at h with h1 h2 h3
  push_neg at h1 h2 h3
  simp only [initState, Option.getD_some] at h
  obtain ⟨h1a, h1b⟩ := h1
  obtain ⟨h2a, h2b⟩ := h2
  split_ifs at h with h4 <;>
    rw [Except.ok.injEq] at h <;>
    subst h <;>
    refine ⟨?_, ?_, ?_, ?_⟩ <;>
    dsimp only <;>
    linarith

end InvariantPreservation

end DoubleRange

namespace DoubleRange

section EvalLemmas

lemma setFrom_eval (s : DoubleRange) (v : ℚ) (fire : Bool) :
    setFrom s v fire =
      if v < s.minValue ∨ v > s.maxValue then (s, false)
      else if s.toValue ≤ v then ((setFromAux 1 s (s.toValue - s.step) true).1, false)
      else if v = s.toValue then (s, false)
      else if guardBlocks s.beforeFromChange v s.toValue then (s, false)
      else
        ((if fire then scheduleCallback { s with fromValue := v }
          else { s with fromValue := v }), true) := rfl

lemma setTo_eval (s : DoubleRange) (v : ℚ) (fire : Bool) :
    setTo s v fire =
      if v < s.minValue ∨ v > s.maxValue then (s, false)
      else if v ≤ s.fromValue then ((setToAux 1 s (s.fromValue + s.step) true).1, false)
      else if v = s.toValue then (s, false)
      else if guardBlocks s.beforeToChange s.fromValue v then (s, false)
      else
        ((if fire then scheduleCallback { s with toValue := v }
          else { s with toValue := v }), true) := rfl

lemma setFromAux_zero (s : DoubleRange) (v : ℚ) (fire : Bool) :
    setFromAux 0 s v fire = setFromStep s v fire (s, false) := rfl

lemma setFromAux_one (s : DoubleRange) (v : ℚ) (fire : Bool) :
    setFromAux 1 s v fire
      = setFromStep s v fire (setFromAux 0 s (s.toValue - s.step) true) := rfl

lemma setToAux_zero (s : DoubleRange) (v : ℚ) (fire : Bool) :
    setToAux 0 s v fire = setToStep s v fire (s, false) := rfl

lemma setToAux_one (s : DoubleRange) (v : ℚ) (fire : Bool) :
    setToAux 1 s v fire
      = setToStep s v fire (setToAux 0 s (s.fromValue + s.step) true) := rfl

lemma setFromAux0_of_ge (s : DoubleRange) (v : ℚ) (h : s.toValue ≤ v) :
    (setFromAux 0 s v true).1 = s := by
  show (setFromStep s v true (s, false)).1 = s
  unfold setFromStep
  split_ifs <;> rfl

lemma setFromAux1_corr (s : DoubleRange) (h : corrFrom s) :
    setFromAux 1 s (s.toValue - s.step) true =
      (scheduleCallback { s with fromValue := s.toValue - s.step }, true) := by
  obtain ⟨hb1, hb2, hlt, hg⟩ := h
  show setFromStep s (s.toValue - s.step) true (setFromAux 0 s (s.toValue - s.step) true) = _
  unfold setFromStep
  rw [if_neg (by push_neg; exact ⟨hb1, hb2⟩), if_neg (not_le_of_lt hlt),
    if_neg (ne_of_lt hlt), if_neg (by simp [hg])]
  rfl

lemma setFromAux1_nocorr (s : DoubleRange) (h : ¬ corrFrom s) :
    (setFromAux 1 s (s.toValue - s.step) true).1 = s := by
  show (setFromStep s (s.toValue - s.step) true (setFromAux 0 s (s.toValue - s.step) true)).1 = s
  unfold setFromStep
  by_cases hb : s.toValue - s.step < s.minValue ∨ s.toValue - s.step > s.maxValue
  · rw [if_pos hb]
  rw [if_neg hb]
  push_neg at hb
  by_cases hge : s.toValue ≤ s.toValue - s.step
  · rw [if_pos hge]
    exact setFromAux0_of_ge s (s.toValue - s.step) hge
  rw [if_neg hge]
  push_neg at hge
  rw [if_neg (ne_of_lt hge)]
  by_cases hgd : guardBlocks s.beforeFromChange (s.toValue - s.step) s.toValue
  · rw [if_pos hgd]
  exact absurd ⟨hb.1, hb.2, hge, by simpa using hgd⟩ h

lemma setToAux0_of_le (s : DoubleRange) (v : ℚ) (h : v ≤ s.fromValue) :
    (setToAux 0 s v true).1 = s := by
  show (setToStep s v true (s, false)).1 = s
  unfold setToStep
  split_ifs <;> rfl

lemma setToAux1_corr (s : DoubleRange) (h : corrTo s) :
    setToAux 1 s (s.fromValue + s.step) true =
      (scheduleCallback { s with toValue := s.fromValue + s.step }, true) := by
  obtain ⟨hb1, hb2, hlt, hne, hg⟩ := h
  show setToStep s (s.fromValue + s.step) true (setToAux 0 s (s.fromValue + s.step) true) = _
  unfold setToStep
  rw [if_neg (by push_neg; exact ⟨hb1, hb2⟩), if_neg (not_le_of_lt hlt),
    if_neg hne, if_neg (by simp [hg])]
  rfl

lemma setToAux1_nocorr (s : DoubleRange) (h : ¬ corrTo s) :
    (setToAux 1 s (s.fromValue + s.step) true).1 = s := by
  show (setToStep s (s.fromValue + s.step) true (setToAux 0 s (s.fromValue + s.step) true)).1 = s
  unfold setToStep
  by_cases hb : s.fromValue + s.step < s.minValue ∨ s.fromValue + s.step > s.maxValue
  · rw [if_pos hb]
  rw [if_neg hb]
  push_neg at hb
  by_cases hle : s.fromValue + s.step ≤ s.fromValue
  · rw [if_pos hle]
    exact setToAux0_of_le s (s.fromValue + s.step) hle
  rw [if_neg hle]
  push_neg at hle
  by_cases heq : s.fromValue + s.step = s.toValue
  · rw [if_pos heq]
  rw [if_neg heq]
  by_cases hgd : guardBlocks s.beforeToChange s.fromValue (s.fromValue + s.step)
  · rw [if_pos hgd]
  exact absurd ⟨hb.1, hb.2, hle, heq, by simpa using hgd⟩ h

end EvalLemmas

end DoubleRange

namespace DoubleRange

section DragFlags

lemma setFromStep_flags (s : DoubleRange) (v : ℚ) (fire : Bool)
    (c : DoubleRange × Bool)
    (hc1 : c.1.duringDrag = s.duringDrag) (hc2 : c.1.isDragging = s.isDragging)
    (hc3 : c.1.trackRect = s.trackRect) (hc4 : c.1.firedCallbacks = s.firedCallbacks)
    (hc5 : s.duringDrag = true → s.timerArmed = false → c.1.timerArmed = false) :
    (setFromStep s v fire c).1.duringDrag = s.duringDrag
    ∧ (setFromStep s v fire c).1.isDragging = s.isDragging
    ∧ (setFromStep s v fire c).1.trackRect = s.trackRect
    ∧ (setFromStep s v fire c).1.firedCallbacks = s.firedCallbacks
    ∧ (s.duringDrag = true → s.timerArmed = false →
        (setFromStep s v fire c).1.timerArmed = false) := by
  unfold setFromStep
  split_ifs with h1 h2 h3 h4 h5
  · exact ⟨rfl, rfl, rfl, rfl, fun _ ht => ht⟩
  · exact ⟨hc1, hc2, hc3, hc4, hc5⟩
  · exact ⟨rfl, rfl, rfl, rfl, fun _ ht => ht⟩
  · exact ⟨rfl, rfl, rfl, rfl, fun _ ht => ht⟩
  · exact ⟨by simp, by simp, by simp, by simp,
      fun hd _ => scheduleCallback_timer_during _ hd⟩
  · exact ⟨rfl, rfl, rfl, rfl, fun _ ht => ht⟩

lemma setFromAux_flags (fuel : Nat) (s : DoubleRange) (v : ℚ) (fire : Bool) :
    (setFromAux fuel s v fire).1.duringDrag = s.duringDrag
    ∧ (setFromAux fuel s v fire).1.isDragging = s.isDragging
    ∧ (setFromAux fuel s v fire).1.trackRect = s.trackRect
    ∧ (setFromAux fuel s v fire).1.firedCallbacks = s.firedCallbacks
    ∧ (s.duringDrag = true → s.timerArmed = false →
        (setFromAux fuel s v fire).1.timerArmed = false) := by
  induction fuel generalizing v fire with
  | zero =>
      exact setFromStep_flags s v fire (s, false) rfl rfl rfl rfl (fun _ ht => ht)
  | succ n ih =>
      obtain ⟨a, b, c, d, e⟩ := ih (s.toValue - s.step) true
      exact setFromStep_flags s v fire _ a b c d e

lemma setToStep_flags (s : DoubleRange) (v : ℚ) (fire : Bool)
    (c : DoubleRange × Bool)
    (hc1 : c.1.duringDrag = s.duringDrag) (hc2 : c.1.isDragging = s.isDragging)
    (hc3 : c.1.trackRect = s.trackRect) (hc4 : c.1.firedCallbacks = s.firedCallbacks)
    (hc5 : s.duringDrag = true → s.timerArmed = false → c.1.timerArmed = false) :
    (setToStep s v fire c).1.duringDrag = s.duringDrag
    ∧ (setToStep s v fire c).1.isDragging = s.isDragging
    ∧ (setToStep s v fire c).1.trackRect = s.trackRect
    ∧ (setToStep s v fire c).1.firedCallbacks = s.firedCallbacks
    ∧ (s.duringDrag = true → s.timerArmed = false →
        (setToStep s v fire c).1.timerArmed = false) := by
  unfold setToStep
  split_ifs with h1 h2 h3 h4 h5
  · exact ⟨rfl, rfl, rfl, rfl, fun _ ht => ht⟩
  · exact ⟨hc1, hc2, hc3, hc4, hc5⟩
  · exact ⟨rfl, rfl, rfl, rfl, fun _ ht => ht⟩
  · exact ⟨rfl, rfl, rfl, rfl, fun _ ht => ht⟩
  · exact ⟨by simp, by simp, by simp, by simp,
      fun hd _ => scheduleCallback_timer_during _ hd⟩
  · exact ⟨rfl, rfl, rfl, rfl, fun _ ht => ht⟩

lemma setToAux_flags (fuel : Nat) (s : DoubleRange) (v : ℚ) (fire : Bool) :
    (setToAux fuel s v fire).1.duringDrag = s.duringDrag
    ∧ (setToAux fuel s v fire).1.isDragging = s.isDragging
    ∧ (setToAux fuel s v fire).1.trackRect = s.trackRect
    ∧ (setToAux fuel s v fire).1.firedCallbacks = s.firedCallbacks
    ∧ (s.duringDrag = true → s.timerArmed = false →
        (setToAux fuel s v fire).1.timerArmed = false) := by
  induction fuel generalizing v fire with
  | zero =>
      exact setToStep_flags s v fire (s, false) rfl rfl rfl rfl (fun _ ht => ht)
  | succ n ih =>
      obtain ⟨a, b, c, d, e⟩ := ih (s.fromValue + s.step) true
      exact setToStep_flags s v fire _ a b c d e

lemma setValue_flags (s : DoubleRange) (t : ThumbType) (v : ℚ) :
    (setValue s t v).duringDrag = s.duringDrag
    ∧ (setValue s t v).isDragging = s.isDragging
    ∧ (setValue s t v).trackRect = s.trackRect
    ∧ (setValue s t v).firedCallbacks = s.firedCallbacks
    ∧ (s.duringDrag = true → s.timerArmed = false →
        (setValue s t v).timerArmed = false) := by
  cases t
  · exact setFromAux_flags 2 s v true
  · exact setToAux_flags 2 s v true

lemma onDragMove_flags (s : DoubleRange) (x : ℚ) :
    (onDragMove s x).duringDrag = s.duringDrag
    ∧ (onDragMove s x).isDragging = s.isDragging
    ∧ (onDragMove s x).trackRect = s.trackRect
    ∧ (onDragMove s x).firedCallbacks = s.firedCallbacks
    ∧ (s.duringDrag = true → s.timerArmed = false →
        (onDragMove s x).timerArmed = false) := by
  unfold onDragMove
  cases hd : s.isDragging with
  | none =>
      cases htr : s.trackRect with
      | none =>
          refine ⟨rfl, ?_, ?_, rfl, fun _ ht => ht⟩ <;> first | rfl | exact hd | exact htr
      | some r =>
          refine ⟨rfl, ?_, ?_, rfl, fun _ ht => ht⟩ <;> first | rfl | exact hd | exact htr
  | some t =>
      cases htr : s.trackRect with
      | none =>
          refine ⟨rfl, ?_, ?_, rfl, fun _ ht => ht⟩ <;> first | rfl | exact hd | exact htr
      | some r =>
          dsimp only
          split
          · refine ⟨rfl, ?_, ?_, rfl, fun _ ht => ht⟩ <;> first | rfl | exact hd | exact htr
          · refine ⟨(setValue_flags s t _).1, (setValue_flags s t _).2.1.trans hd,
              (setValue_flags s t _).2.2.1.trans htr, (setValue_flags s t _).2.2.2.1,
              (setValue_flags s t _).2.2.2.2⟩

lemma dragMoves_cons (s : DoubleRange) (x : ℚ) (xs : List ℚ) :
    dragMoves s (x :: xs) = dragMoves (onDragMove s x) xs := rfl

lemma dragMoves_flags (xs : List ℚ) :
    ∀ s : DoubleRange, s.duringDrag = true → s.timerArmed = false →
      (dragMoves s xs).duringDrag = true
      ∧ (dragMoves s xs).timerArmed = false
      ∧ (dragMoves s xs).firedCallbacks = s.firedCallbacks
      ∧ (dragMoves s xs).isDragging = s.isDragging := by
  induction xs with
  | nil => exact fun s h1 h2 => ⟨h1, h2, rfl, rfl⟩
  | cons x xs ih =>
      intro s h1 h2
      obtain ⟨a, b, c, d, e⟩ := onDragMove_flags s x
      have h1' : (onDragMove s x).duringDrag = true := a.trans h1
      have h2' : (onDragMove s x).timerArmed = false := e h1 h2
      obtain ⟨p, q, r, w⟩ := ih (onDragMove s x) h1' h2'
      rw [dragMoves_cons]
      exact ⟨p, q, r.trans d, w.trans b⟩

lemma fireTimer_unarmed (s : DoubleRange) (h : s.timerArmed = false) :
    fireTimer s = s := by
  unfold fireTimer
  rw [if_neg (by simp [h])]

lemma fireTimer_armed (s : DoubleRange) (h : s.timerArmed = true) :
    fireTimer s = { s with timerArmed := false,
                           firedCallbacks := s.firedCallbacks ++ [(s.fromValue, s.toValue)] } := by
  unfold fireTimer
  rw [if_pos h]

end DragFlags

end DoubleRange

namespace DoubleRange

section DeadBranch

lemma setFromStep_eq_noEq (s : DoubleRange) (v : ℚ) (fire : Bool)
    (c : DoubleRange × Bool) : setFromStep s v fire c = setFromStepNoEq s v fire c := by
  unfold setFromStep setFromStepNoEq
  by_cases hb : v < s.minValue ∨ v > s.maxValue
  · rw [if_pos hb, if_pos hb]
  rw [if_neg hb, if_neg hb]
  by_cases hge : s.toValue ≤ v
  · rw [if_pos hge, if_pos hge]
  rw [if_neg hge, if_neg hge]
  rw [if_neg (fun he : v = s.toValue => hge (le_of_eq he.symm))]

lemma setFromAux_eq_noEq (fuel : Nat) (s : DoubleRange) (v : ℚ) (fire : Bool) :
    setFromAux fuel s v fire = setFromAuxNoEq fuel s v fire := by
  induction fuel generalizing v fire with
  | zero =>
      show setFromStep s v fire (s, false) = setFromStepNoEq s v fire (s, false)
      rw [setFromStep_eq_noEq]
  | succ n ih =>
      show setFromStep s v fire (setFromAux n s (s.toValue - s.step) true)
        = setFromStepNoEq s v fire (setFromAuxNoEq n s (s.toValue - s.step) true)
      rw [ih, setFromStep_eq_noEq]

end DeadBranch

end DoubleRange

namespace DoubleRange

/-- C1 (amended): every state reachable through a create-mode bind followed
by any sequence of public operations (setFrom, setTo, setMin, setMax,
update), interaction events (keyboard, track click, drag start/move/end),
geometry recaching and timer expiry satisfies the ordering invariant
min < max and min ≤ from < to ≤ max.  Attach-mode binding checks only
from < to and can establish a violating state, see the counterexample. -/
theorem invariant_of_reachable (s : DoubleRange) (h : Reachable s) : Invariant s := by
  induction h with
  | init o s0 h0 => exact createBind_invariant o s0 h0
  | rectsStep s0 r h0 ih => exact setRects_invariant s0 r ih
  | setFromStep s0 v fire h0 ih => exact setFrom_invariant s0 v fire ih
  | setToStep s0 v fire h0 ih => exact setTo_invariant s0 v fire ih
  | setMinStep s0 v fire h0 ih => exact setMin_invariant s0 v fire ih
  | setMaxStep s0 v fire h0 ih => exact setMax_invariant s0 v fire ih
  | updateStep s0 o fire h0 ih => exact update_invariant s0 o fire ih
  | keyStep s0 k t h0 ih => exact onKey_invariant s0 k t ih
  | clickStep s0 x h0 ih => exact trackClicked_invariant s0 x ih
  | dragStartStep s0 t h0 ih => exact onDragStart_invariant s0 t ih
  | dragMoveStep s0 x h0 ih => exact onDragMove_invariant s0 x ih
  | dragEndStep s0 h0 ih => exact onDragEnd_invariant s0 ih
  | timerStep s0 h0 ih => exact fireTimer_invariant s0 ih

/-- C1 (counterexample): attach-mode binding to markup whose attributes
disagree with the thumb values (aria-valuemin 50 but thumb value 10)
succeeds, yet the resulting externally observable state violates
min ≤ from, so the invariant does not hold after every binding. -/
theorem attach_bind_breaks_invariant :
    initState exAttrsSkewed (exCfg 0 100 10 60 1) = .ok exAttached
    ∧ ¬ Invariant exAttached := by
  constructor
  · norm_num [initState, exAttrsSkewed, exCfg, exAttached, exIdle]
  · norm_num [Invariant, exAttached, exIdle]

/-- C1 (witness): the create-mode bind of the running configuration is
reachable and satisfies the invariant. -/
theorem invariant_of_reachable_witness : Invariant exWide :=
  invariant_of_reachable exWide
    (Reachable.init exBindCfg exWide
      (by norm_num [createBind, initState, exBindCfg, exCfg, exWide, exIdle]))

/-- C2 (amended): with v within [min, max] and v ≥ to, setFrom returns the
failure sentinel and attempts the corrective self-write: from becomes
to − step exactly when that value passes the self-call's own bounds,
ordering and guard checks (`corrFrom`), and otherwise the state is left
unchanged; symmetrically for setTo with v ≤ from and from + step. -/
theorem setFrom_setTo_corrective (s : DoubleRange) (v : ℚ) (fire : Bool) :
    (s.minValue ≤ v → v ≤ s.maxValue → s.toValue ≤ v →
      ((setFrom s v fire).2 = false
        ∧ (corrFrom s →
            (setFrom s v fire).1
              = scheduleCallback { s with fromValue := s.toValue - s.step })
        ∧ (¬ corrFrom s → (setFrom s v fire).1 = s)))
    ∧ (s.minValue ≤ v → v ≤ s.maxValue → v ≤ s.fromValue →
      ((setTo s v fire).2 = false
        ∧ (corrTo s →
            (setTo s v fire).1
              = scheduleCallback { s with toValue := s.fromValue + s.step })
        ∧ (¬ corrTo s → (setTo s v fire).1 = s))) := by
  constructor
  · intro hmin hmax hge
    have he : setFrom s v fire = ((setFromAux 1 s (s.toValue - s.step) true).1, false) := by
      rw [setFrom_eval, if_neg (by push_neg; exact ⟨hmin, hmax⟩), if_pos hge]
    refine ⟨by rw [he], ?_, ?_⟩
    · intro hc
      rw [he, setFromAux1_corr s hc]
    · intro hc
      rw [he]
      exact setFromAux1_nocorr s hc
  · intro hmin hmax hle
    have he : setTo s v fire = ((setToAux 1 s (s.fromValue + s.step) true).1, false) := by
      rw [setTo_eval, if_neg (by push_neg; exact ⟨hmin, hmax⟩), if_pos hle]
    refine ⟨by rw [he], ?_, ?_⟩
    · intro hc
      rw [he, setToAux1_corr s hc]
    · intro hc
      rw [he]
      exact setToAux1_nocorr s hc

/-- C2 (counterexample): in the valid state with bounds 0..100, step 5 and
selection 2..3, setFrom 50 violates ordering (50 ≥ 3) and the claimed
corrective write is not performed: to − step = −2 is below min, so the
self-call rejects it, from stays 2 and is never set to to − step; the call
still returns the failure sentinel. -/
theorem setFrom_corrective_not_performed :
    (exNarrow.minValue ≤ 50 ∧ (50:ℚ) ≤ exNarrow.maxValue ∧ exNarrow.toValue ≤ 50)
    ∧ (setFrom exNarrow 50 true).2 = false
    ∧ (setFrom exNarrow 50 true).1.fromValue = 2
    ∧ exNarrow.toValue - exNarrow.step = -2
    ∧ (setFrom exNarrow 50 true).1.fromValue ≠ exNarrow.toValue - exNarrow.step := by
  norm_num [setFrom_eval, setFromAux_one, setFromAux_zero, setFromStep, guardBlocks,
    scheduleCallback, exNarrow, exIdle]

/-- C2 (witness): in the running state 20..80 with step 5, setFrom 90 fails
and the corrective write sets from to 75 = to − step. -/
theorem setFrom_setTo_corrective_witness :
    (setFrom exWide 90 true).2 = false
    ∧ (setFrom exWide 90 true).1.fromValue = 75 := by
  have h := (setFrom_setTo_corrective exWide 90 true).1
    (by norm_num [exWide, exIdle]) (by norm_num [exWide, exIdle])
    (by norm_num [exWide, exIdle])
  refine ⟨h.1, ?_⟩
  rw [h.2.1 (by norm_num [corrFrom, guardBlocks, exWide, exIdle])]
  norm_num [scheduleCallback, exWide, exIdle]

/-- C3 (code bug): the duplicate-bind check and the registration use
different keys.  Binding container 4 whose inner element is 5 registers
element 5; binding the same container again checks only whether the
container 4 is registered, finds nothing (the container is never a key),
raises no error and builds a second instance — although the source's own
comment ("Prevent double initialization") and its error message document
that the second bind must fail with no new instance. -/
theorem attachBind_misses_duplicate :
    attachBind [] 4 5 exAttrsWide (exCfg 0 100 20 80 5) = .ok ([5], exWide)
    ∧ attachBind [5] 4 5 exAttrsWide (exCfg 0 100 20 80 5) = .ok ([5], exWide)
    ∧ (4 : Nat) ∉ ([5] : List Nat) := by
  refine ⟨?_, ?_, by decide⟩ <;>
    norm_num [attachBind, initState, Except.map, exAttrsWide, exCfg, exWide, exIdle,
      List.insert]

/-- C4: update is atomic: it raises exactly when the fully-merged next
state (missing fields defaulting to current values) violates one of the
ordering constraints, and whenever it raises, the state is unchanged. -/
theorem update_atomic (s : DoubleRange) (o : UpdateOptions) (fire : Bool) :
    ((update s o fire).2.isSome = true ↔
      (mergedMax s o ≤ mergedMin s o
        ∨ mergedFrom s o < mergedMin s o ∨ mergedFrom s o > mergedMax s o
        ∨ mergedTo s o < mergedMin s o ∨ mergedTo s o > mergedMax s o
        ∨ mergedTo s o ≤ mergedFrom s o))
    ∧ ((update s o fire).2.isSome = true → (update s o fire).1 = s) := by
  unfold update
  dsimp only
  split_ifs with h1 h2 h3 h4 h5 <;> simp_all <;> tauto

/-- C4 (witness): update with min 10 and max 90 while from is 5 raises and
leaves the state unchanged. -/
theorem update_atomic_witness :
    (update exLow exShift true).1 = exLow
    ∧ (update exLow exShift true).2.isSome = true := by
  have h := update_atomic exLow exShift true
  have hv : (update exLow exShift true).2.isSome = true :=
    h.1.mpr (Or.inr (Or.inl (by norm_num [mergedFrom, mergedMin, exLow, exShift, exIdle])))
  exact ⟨h.2 hv, hv⟩

end DoubleRange

namespace DoubleRange

section ClickHelper

lemma trackClicked_eval (s : DoubleRange) (x l w : ℚ) (hr : s.trackRect = some (l, w)) :
    trackClicked s x =
      if |snapValue s (s.minValue + ((x - l) / w) * (s.maxValue - s.minValue)) - s.fromValue|
          < |snapValue s (s.minValue + ((x - l) / w) * (s.maxValue - s.minValue)) - s.toValue|
      then (setFrom s (snapValue s (s.minValue + ((x - l) / w) * (s.maxValue - s.minValue))) true).1
      else (setTo s (snapValue s (s.minValue + ((x - l) / w) * (s.maxValue - s.minValue))) true).1 := by
  unfold trackClicked
  rw [hr]

end ClickHelper

/-- C5 (amended): a track click computes the snapped candidate from the raw
pointer position without clamping and moves the thumb whose current value
is at strictly smaller absolute distance from the candidate; at equal
distances the source's strict comparison fails, so the to thumb (not the
from thumb) moves.  With selection 20..80, a click snapping to 53 moves
the to thumb, yielding from 20, to 53 (see the witness). -/
theorem trackClicked_nearest (s : DoubleRange) (x l w : ℚ)
    (hr : s.trackRect = some (l, w)) (c : ℚ)
    (hc : c = snapValue s (s.minValue + ((x - l) / w) * (s.maxValue - s.minValue))) :
    (|c - s.fromValue| < |c - s.toValue| → trackClicked s x = (setFrom s c true).1)
    ∧ (|c - s.toValue| ≤ |c - s.fromValue| → trackClicked s x = (setTo s c true).1) := by
  subst hc
  rw [trackClicked_eval s x l w hr]
  constructor
  · intro hlt
    rw [if_pos hlt]
  · intro hle
    rw [if_neg (not_lt.mpr hle)]

/-- C5 (counterexample): with selection 20..80 and a click snapping
exactly to 50, the two distances tie at 30 and the code moves the to
thumb to 50 (the strict comparison fails), not the from thumb as the
claim's tie-break states. -/
theorem trackClicked_tie_cex :
    |(50:ℚ) - exTrack.fromValue| = |(50:ℚ) - exTrack.toValue|
    ∧ (trackClicked exTrack 50).fromValue = 20
    ∧ (trackClicked exTrack 50).toValue = 50
    ∧ ¬ ((trackClicked exTrack 50).fromValue = 50
          ∧ (trackClicked exTrack 50).toValue = 80) := by
  have habs : |(50:ℚ) - exTrack.fromValue| = |(50:ℚ) - exTrack.toValue| := by
    show |(50:ℚ) - 20| = |(50:ℚ) - 80|
    rw [show (50:ℚ) - 20 = 30 from by norm_num,
        show (50:ℚ) - 80 = -30 from by norm_num, abs_neg]
  have he := trackClicked_eval exTrack 50 0 100 rfl
  have hs : snapValue exTrack
      (exTrack.minValue + ((50 - 0) / 100) * (exTrack.maxValue - exTrack.minValue)) = 50 := by
    norm_num [snapValue, exTrack, exWide, exIdle, round_eq]
  rw [hs] at he
  have hcond : ¬ (|(50:ℚ) - exTrack.fromValue| < |(50:ℚ) - exTrack.toValue|) := by
    rw [habs]
    exact lt_irrefl _
  rw [he, if_neg hcond]
  refine ⟨habs, ?_, ?_, ?_⟩ <;>
    norm_num [setTo_eval, setToAux_one, setToAux_zero, setToStep, guardBlocks,
      scheduleCallback, exTrack, exWide, exIdle]

/-- C5 (witness): with selection 20..80, step 1 and a click mapping to 53,
the to thumb is closer (27 vs 33) and moves to 53, yielding from 20, to
53. -/
theorem trackClicked_nearest_witness :
    (trackClicked exTrackFine 53).fromValue = 20
    ∧ (trackClicked exTrackFine 53).toValue = 53 := by
  have h := (trackClicked_nearest exTrackFine 53 0 100 rfl 53
    (by norm_num [snapValue, exTrackFine, exTrack, exWide, exIdle, round_eq])).2 ?hle
  case hle =>
    show |(53:ℚ) - 80| ≤ |(53:ℚ) - 20|
    rw [show (53:ℚ) - 80 = -27 from by norm_num,
        show (53:ℚ) - 20 = 33 from by norm_num, abs_neg,
        abs_of_nonneg (by norm_num : (0:ℚ) ≤ 27),
        abs_of_nonneg (by norm_num : (0:ℚ) ≤ 33)]
    norm_num
  rw [h]
  constructor <;>
    norm_num [setTo_eval, setToAux_one, setToAux_zero, setToStep, guardBlocks,
      scheduleCallback, exTrackFine, exTrack, exWide, exIdle]

/-- C6 (amended): after setFrom v, getFrom returns v exactly when v was
accepted (v within [min, to) and not vetoed by the registered guard) or v
already equalled the current from value: a vetoed or rejected re-set of
the current value also leaves getFrom = v, so the equality alone does not
certify acceptance. -/
theorem setFrom_roundTrip (s : DoubleRange) (v : ℚ) (fire : Bool)
    (h1 : s.minValue ≤ s.fromValue) (h2 : s.fromValue < s.toValue)
    (h3 : s.toValue ≤ s.maxValue) :
    getFrom (setFrom s v fire).1 = v ↔
      ((s.minValue ≤ v ∧ v < s.toValue
          ∧ guardBlocks s.beforeFromChange v s.toValue = false)
        ∨ v = s.fromValue) := by
  unfold getFrom
  rw [setFrom_eval]
  by_cases hb : v < s.minValue ∨ v > s.maxValue
  · rw [if_pos hb]
    dsimp only
    constructor
    · intro hv
      exact Or.inr hv.symm
    · rintro (⟨ha, hbd, _⟩ | hv)
      · rcases hb with hb | hb
        · exact absurd ha (not_le.mpr hb)
        · exact absurd (lt_of_lt_of_le hbd h3) (lt_asymm hb)
      · exact hv.symm
  · rw [if_neg hb]
    push_neg at hb
    by_cases hge : s.toValue ≤ v
    · rw [if_pos hge]
      dsimp only
      constructor
      · intro hv
        exfalso
        by_cases hc : corrFrom s
        · rw [setFromAux1_corr s hc] at hv
          dsimp only at hv
          rw [scheduleCallback_fromValue] at hv
          exact absurd hv (ne_of_lt (lt_of_lt_of_le hc.2.2.1 hge))
        · rw [setFromAux1_nocorr s hc] at hv
          exact absurd hv (ne_of_lt (lt_of_lt_of_le h2 hge))
      · rintro (⟨_, hbd, _⟩ | hv)
        · exact absurd hbd (not_lt.mpr hge)
        · have hcon : s.toValue ≤ s.fromValue := hv ▸ hge
          exact absurd hcon (not_le.mpr h2)
    · rw [if_neg hge]
      push_neg at hge
      rw [if_neg (ne_of_lt hge)]
      by_cases hgd : guardBlocks s.beforeFromChange v s.toValue
      · rw [if_pos hgd]
        dsimp only
        constructor
        · intro hv
          exact Or.inr hv.symm
        · rintro (⟨_, _, hg0⟩ | hv)
          · rw [hgd] at hg0
            exact Bool.noConfusion hg0
          · exact hv.symm
      · rw [if_neg hgd]
        dsimp only
        simp only [Bool.not_eq_true] at hgd
        have hfv : (if fire then scheduleCallback { s with fromValue := v }
            else { s with fromValue := v }).fromValue = v := by
          split
          · rw [scheduleCallback_fromValue]
          · rfl
        exact iff_of_true hfv (Or.inl ⟨hb.1, hge, hgd⟩)

/-- C6 (counterexample): with a guard that vetoes every change and v equal
to the current from value 20, setFrom is vetoed yet getFrom still returns
v, so the claim's biconditional (returns v exactly when in range and not
vetoed) fails. -/
theorem setFrom_roundTrip_veto_cex :
    ¬ (getFrom (setFrom exVeto 20 true).1 = 20 ↔
        (exVeto.minValue ≤ 20 ∧ (20:ℚ) < exVeto.toValue
          ∧ guardBlocks exVeto.beforeFromChange 20 exVeto.toValue = false)) := by
  have hres : (setFrom exVeto 20 true).1 = exVeto := by
    rw [setFrom_eval,
        if_neg (by norm_num [exVeto, exWide, exIdle]),
        if_neg (by norm_num [exVeto, exWide, exIdle]),
        if_neg (by norm_num [exVeto, exWide, exIdle]),
        if_pos (by norm_num [guardBlocks, exVeto, exWide, exIdle])]
  rw [hres]
  intro hiff
  have h20 : getFrom exVeto = 20 := by norm_num [getFrom, exVeto, exWide, exIdle]
  have hrhs := hiff.mp h20
  have hgd : guardBlocks exVeto.beforeFromChange 20 exVeto.toValue = true := by
    norm_num [guardBlocks, exVeto, exWide, exIdle]
  rw [hgd] at hrhs
  exact Bool.noConfusion hrhs.2.2

/-- C6 (witness): in the guard-free running state, setFrom 30 is accepted
and getFrom returns 30. -/
theorem setFrom_roundTrip_witness :
    getFrom (setFrom exWide 30 true).1 = 30 :=
  (setFrom_roundTrip exWide 30 true (by norm_num [exWide, exIdle])
      (by norm_num [exWide, exIdle]) (by norm_num [exWide, exIdle])).mpr
    (Or.inl ⟨by norm_num [exWide, exIdle], by norm_num [exWide, exIdle],
      by norm_num [guardBlocks, exWide, exIdle]⟩)

/-- C7: setMin raises exactly when the new minimum would reach the current
maximum or exceed the current from value, setMax exactly when the new
maximum would reach the current minimum or fall below the current to
value, and whenever either raises the state is unchanged. -/
theorem setMin_setMax_reject (s : DoubleRange) (v : ℚ) (fire : Bool) :
    ((setMin s v fire).2.isSome = true ↔ (s.maxValue ≤ v ∨ s.fromValue < v))
    ∧ ((setMin s v fire).2.isSome = true → (setMin s v fire).1 = s)
    ∧ ((setMax s v fire).2.isSome = true ↔ (v ≤ s.minValue ∨ v < s.toValue))
    ∧ ((setMax s v fire).2.isSome = true → (setMax s v fire).1 = s) := by
  refine ⟨?_, ?_, ?_, ?_⟩
  · unfold setMin
    split_ifs <;> simp_all
  · unfold setMin
    split_ifs <;> simp_all
  · unfold setMax
    split_ifs <;> simp_all
  · unfold setMax
    split_ifs <;> simp_all

/-- C7 (witness): setMax 50 with current to 60 raises and leaves the state
unchanged. -/
theorem setMin_setMax_reject_witness :
    (setMax exHigh 50 true).1 = exHigh
    ∧ (setMax exHigh 50 true).2.isSome = true := by
  have h := setMin_setMax_reject exHigh 50 true
  have hv : (setMax exHigh 50 true).2.isSome = true :=
    h.2.2.1.mpr (Or.inr (by norm_num [exHigh, exIdle]))
  exact ⟨h.2.2.2 hv, hv⟩

/-- C8: after a drag start and any prefix of move events, the debounce
timer is unarmed and no callback has been delivered (a timer event is a
no-op), because drag start clears any pending timer and scheduling during
a drag is suppressed; drag end arms the timer once, its expiry delivers
exactly one callback carrying the settled pair, and a further timer event
delivers nothing. -/
theorem drag_suppression (s : DoubleRange) (t : ThumbType) (xs : List ℚ) :
    (∀ n : Nat,
      (dragMoves (onDragStart s t) (xs.take n)).timerArmed = false
      ∧ (dragMoves (onDragStart s t) (xs.take n)).firedCallbacks = s.firedCallbacks
      ∧ fireTimer (dragMoves (onDragStart s t) (xs.take n))
          = dragMoves (onDragStart s t) (xs.take n))
    ∧ (onDragEnd (dragMoves (onDragStart s t) xs)).timerArmed = true
    ∧ (onDragEnd (dragMoves (onDragStart s t) xs)).firedCallbacks = s.firedCallbacks
    ∧ (fireTimer (onDragEnd (dragMoves (onDragStart s t) xs))).firedCallbacks
        = s.firedCallbacks
          ++ [((onDragEnd (dragMoves (onDragStart s t) xs)).fromValue,
               (onDragEnd (dragMoves (onDragStart s t) xs)).toValue)]
    ∧ fireTimer (fireTimer (onDragEnd (dragMoves (onDragStart s t) xs)))
        = fireTimer (onDragEnd (dragMoves (onDragStart s t) xs)) := by
  have hstart : (onDragStart s t).duringDrag = true := rfl
  have hstartT : (onDragStart s t).timerArmed = false := rfl
  have hstartF : (onDragStart s t).firedCallbacks = s.firedCallbacks := rfl
  have hstartD : (onDragStart s t).isDragging = some t := rfl
  constructor
  · intro n
    obtain ⟨a, b, c, d⟩ := dragMoves_flags (xs.take n) (onDragStart s t) hstart hstartT
    exact ⟨b, c.trans hstartF, fireTimer_unarmed _ b⟩
  · obtain ⟨a, b, c, d⟩ := dragMoves_flags xs (onDragStart s t) hstart hstartT
    have hdrag : (dragMoves (onDragStart s t) xs).isDragging = some t :=
      d.trans hstartD
    have hend : onDragEnd (dragMoves (onDragStart s t) xs)
        = scheduleCallback { dragMoves (onDragStart s t) xs with
                             isDragging := none, duringDrag := false } := by
      unfold onDragEnd
      rw [hdrag]
    have hendT : (onDragEnd (dragMoves (onDragStart s t) xs)).timerArmed = true := by
      rw [hend]
      exact scheduleCallback_timer_idle _ rfl
    have hendF : (onDragEnd (dragMoves (onDragStart s t) xs)).firedCallbacks
        = s.firedCallbacks := by
      rw [hend, scheduleCallback_firedCallbacks]
      exact c.trans hstartF
    have hfire : (fireTimer (onDragEnd (dragMoves (onDragStart s t) xs))).firedCallbacks
        = (onDragEnd (dragMoves (onDragStart s t) xs)).firedCallbacks
          ++ [((onDragEnd (dragMoves (onDragStart s t) xs)).fromValue,
               (onDragEnd (dragMoves (onDragStart s t) xs)).toValue)] := by
      rw [fireTimer_armed _ hendT]
    refine ⟨hendT, hendF, ?_, ?_⟩
    · rw [hfire, hendF]
    · rw [fireTimer_armed _ hendT]
      exact fireTimer_unarmed _ rfl

/-- C9 (amended): whenever the two rendered labels fit into the container
at all (combined width at most W), the fixed-order layout passes leave
both label boxes within [0, W] and non-overlapping; when the combined
width exceeds W this is geometrically impossible and the passes can leave
both boxes sticking out (see the counterexample). -/
theorem resolveLabels_contained (W fl fw tl tw : ℚ) (hfw : 0 < fw) (htw : 0 < tw)
    (hsum : fw + tw ≤ W) :
    0 ≤ (resolveLabels W fl fw tl tw).1
    ∧ (resolveLabels W fl fw tl tw).1 + fw ≤ (resolveLabels W fl fw tl tw).2
    ∧ (resolveLabels W fl fw tl tw).2 + tw ≤ W := by
  unfold resolveLabels
  dsimp only
  split_ifs <;> refine ⟨?_, ?_, ?_⟩ <;> dsimp only <;> linarith

/-- C9 (counterexample): container width 100 with two labels of width 60
whose nominal centers are 10 apart (combined width 120 exceeds both the
distance and the container): after the passes the from label's left edge
is −15, outside [0, W], so containment fails for the claim as stated. -/
theorem resolveLabels_escape_cex :
    (resolveLabels 100 20 60 30 60).1 = -15
    ∧ ¬ (0 ≤ (resolveLabels 100 20 60 30 60).1)
    ∧ ((30:ℚ) + 60 / 2) - (20 + 60 / 2) < 60 + 60 := by
  norm_num [resolveLabels]

/-- C9 (witness): two labels of width 40 in a container of width 100 with
heavily overlapping nominal positions end up contained and disjoint. -/
theorem resolveLabels_contained_witness :
    0 ≤ (resolveLabels 100 10 40 20 40).1
    ∧ (resolveLabels 100 10 40 20 40).1 + 40 ≤ (resolveLabels 100 10 40 20 40).2
    ∧ (resolveLabels 100 10 40 20 40).2 + 40 ≤ 100 :=
  resolveLabels_contained 100 10 40 20 40 (by norm_num) (by norm_num) (by norm_num)

/-- C10: in any valid state, setTo with the current to value returns the
failure sentinel with no mutation and no scheduling (the state is returned
untouched), while the analogous equality branch in setFrom is dead code:
setFrom computes identically with that branch removed, at every fuel,
state and argument. -/
theorem setTo_noChange_rejected_and_setFrom_eq_dead (s : DoubleRange) (fire : Bool)
    (h1 : s.minValue ≤ s.fromValue) (h2 : s.fromValue < s.toValue)
    (h3 : s.toValue ≤ s.maxValue) :
    setTo s s.toValue fire = (s, false)
    ∧ ∀ (fuel : Nat) (s2 : DoubleRange) (v : ℚ) (fire2 : Bool),
        setFromAux fuel s2 v fire2 = setFromAuxNoEq fuel s2 v fire2 := by
  constructor
  · rw [setTo_eval,
        if_neg (by push_neg; exact ⟨le_trans h1 (le_of_lt h2), h3⟩),
        if_neg (not_le.mpr h2), if_pos rfl]
  · intro fuel s2 v fire2
    exact setFromAux_eq_noEq fuel s2 v fire2

/-- C10 (witness): in the running state 20..80, setTo 80 returns the
failure sentinel with the state untouched, and setFrom with and without
the equality branch agree there. -/
theorem setTo_noChange_rejected_witness :
    setTo exWide 80 true = (exWide, false)
    ∧ setFromAux 2 exWide 80 true = setFromAuxNoEq 2 exWide 80 true := by
  have h := setTo_noChange_rejected_and_setFrom_eq_dead exWide true
    (by norm_num [exWide, exIdle]) (by norm_num [exWide, exIdle])
    (by norm_num [exWide, exIdle])
  exact ⟨h.1, h.2 2 exWide 80 true⟩

end DoubleRange
